import Mathlib

/-!
Verification of the earthquake visualizer client-side core.

The definitions below are a shallow embedding of the repository source:

* `src/types/earthquake.ts` : the event data model;
* `src/lib/usgs.ts`         : the feed client `fetchEarthquakes`;
* `src/App.tsx`             : the filter memo `filtered`, the sort memo
  `sortedByTimeDesc`, the pagination (`pageSize`, `totalPages`, `pageItems`,
  `getPageNumbers`), the fetch effect with its `isActive` guard, and the
  auto-fit coordination (`FitBounds`, `suppressFitRef`, `autoFitEnabled`).

JavaScript strings are modelled as lists of characters (`Str`); JavaScript
numbers carrying magnitudes, coordinates and timestamps are modelled as
rationals and integers (the claims only use order comparisons, which the
embedding preserves); nullable fields are modelled as `Option`.
-/

/-- JavaScript strings, modelled as lists of characters. -/
abbrev Str : Type := List Char

/-- Whitespace as removed by the JavaScript trim method (ASCII fragment). -/
def isWhitespaceChar (c : Char) : Bool :=
  c == ' ' || c == '\t' || c == '\n' || c == '\r'

/-- Model of the JavaScript trim method: drop whitespace at both ends. -/
def trimStr (s : Str) : Str :=
  ((s.dropWhile isWhitespaceChar).reverse.dropWhile isWhitespaceChar).reverse

/-- Model of the JavaScript toLowerCase method (ASCII fragment). -/
def toLowerStr (s : Str) : Str :=
  s.map Char.toLower

/-- Helper for substring search: does the pattern occur at the head of s. -/
def strStartsWith : Str → Str → Bool
  | _, [] => true
  | [], _ :: _ => false
  | c :: cs, p :: ps => c == p && strStartsWith cs ps

/-- Model of the JavaScript includes method: the pattern occurs contiguously
somewhere in s. -/
def containsStr : Str → Str → Bool
  | [], pat => pat.isEmpty
  | c :: rest, pat => strStartsWith (c :: rest) pat || containsStr rest pat

/-- Properties of a feature, from EarthquakeProperties in
src/types/earthquake.ts. Nullable and optional fields are Options. -/
structure EarthquakeProperties where
  mag : Option ℚ
  place : Option Str
  time : Option ℤ
  url : Option Str
  tsunami : Option ℤ
  sig : Option ℤ
deriving DecidableEq, Repr

/-- One event record, from EarthquakeFeature in src/types/earthquake.ts.
The geometry is the coordinate triple longitude, latitude, depth. -/
structure EarthquakeFeature where
  id : Str
  properties : EarthquakeProperties
  coordinates : ℚ × ℚ × ℚ
deriving DecidableEq, Repr

/-- The parsed feed document, from EarthquakeGeoJSON in
src/types/earthquake.ts. -/
structure EarthquakeGeoJSON where
  features : List EarthquakeFeature
deriving DecidableEq, Repr

/-- The magnitude used by the filter comparison: the source coalesces a null
magnitude to negative infinity, modelled as the bottom of WithBot. -/
def magValue (m : Option ℚ) : WithBot ℚ :=
  match m with
  | none => ⊥
  | some x => (x : WithBot ℚ)

/-- The magnitude predicate of the filter memo in App.tsx:
magOk holds when (mag coalesced to negative infinity) is at least minMag. -/
def magOk (minMag : ℚ) (f : EarthquakeFeature) : Bool :=
  decide ((minMag : WithBot ℚ) ≤ magValue f.properties.mag)

/-- The place predicate of the filter memo in App.tsx: the query is trimmed
and lower-cased; when the result is empty every event passes, otherwise the
lower-cased place (null coalesced to the empty string) must contain it. -/
def placeOk (query : Str) (f : EarthquakeFeature) : Bool :=
  let q := toLowerStr (trimStr query)
  if q.isEmpty then true
  else containsStr (toLowerStr (f.properties.place.getD [])) q

/-- The filtered memo in App.tsx: keep the events passing both predicates. -/
def filtered (data : List EarthquakeFeature) (minMag : ℚ) (query : Str) :
    List EarthquakeFeature :=
  data.filter (fun f => magOk minMag f && placeOk query f)

/-- The place predicate exactly as the specification words it, with no
trimming of the query: the spec place-substring clause reads, the spec place
is empty OR the event place case-folded contains the spec place case-folded.
Declared only to compare the spec wording with the source behavior. -/
def placeOkSpec (query : Str) (f : EarthquakeFeature) : Bool :=
  if query.isEmpty then true
  else containsStr (toLowerStr (f.properties.place.getD [])) (toLowerStr query)

/-- Helper: filtering is idempotent for any boolean predicate. -/
theorem filter_idem {α : Type} (p : α → Bool) (l : List α) :
    (l.filter p).filter p = l.filter p := by
  rw [List.filter_filter]
  simp

/-- A concrete event used as a counterexample input: place Alaska,
magnitude 3. -/
def cexFeature : EarthquakeFeature :=
  { id := "cex1".toList
    properties :=
      { mag := some 3
        place := some "Alaska".toList
        time := some 100
        url := none
        tsunami := none
        sig := none }
    coordinates := (0, 0, 0) }

/-- A concrete event used to instantiate witnesses. -/
def sampleFeature : EarthquakeFeature :=
  { id := "w1".toList
    properties :=
      { mag := some (2.5 : ℚ)
        place := some "Near Tokyo, Japan".toList
        time := some 1000
        url := none
        tsunami := some 0
        sig := some 10 }
    coordinates := (139, 35, 10) }

/-- C1 (amended): membership in the filter output is characterized by the
two predicates of the source, where the place substring is first trimmed of
surrounding whitespace; consequently the output is a subset of the input. -/
theorem filtered_mem_spec (data : List EarthquakeFeature) (minMag : ℚ)
    (query : Str) (e : EarthquakeFeature) :
    (e ∈ filtered data minMag query ↔
      e ∈ data ∧ magOk minMag e = true ∧ placeOk query e = true)
    ∧ (e ∈ filtered data minMag query → e ∈ data) := by
  constructor
  · rw [filtered, List.mem_filter, Bool.and_eq_true]
  · intro h
    exact (List.mem_filter.mp h).1

/-- C1 witness: the characterization instantiated at a concrete event and
filter specification. -/
theorem filtered_mem_witness :
    (sampleFeature ∈ filtered [sampleFeature] 0 "tokyo".toList ↔
      sampleFeature ∈ [sampleFeature] ∧ magOk 0 sampleFeature = true
        ∧ placeOk "tokyo".toList sampleFeature = true)
    ∧ (sampleFeature ∈ filtered [sampleFeature] 0 "tokyo".toList →
        sampleFeature ∈ [sampleFeature]) :=
  filtered_mem_spec [sampleFeature] 0 "tokyo".toList sampleFeature

/-- C1 counterexample to the claim as stated: with the query consisting of
the word alaska preceded by one space, the source trims the query and keeps
the Alaska event, while the claim predicate, which does not trim, is false
for that event; so the stated iff fails at this concrete input. -/
theorem filtered_claim_cex :
    cexFeature ∈ filtered [cexFeature] 0 " alaska".toList
    ∧ placeOkSpec " alaska".toList cexFeature = false := by
  constructor
  · decide
  · decide

/-- C8: the filter is idempotent: filtering an already filtered list with
the same specification returns it unchanged. -/
theorem filtered_idempotent (data : List EarthquakeFeature) (minMag : ℚ)
    (query : Str) :
    filtered (filtered data minMag query) minMag query
      = filtered data minMag query :=
  filter_idem _ data

/-- The sort key of the sortedByTimeDesc memo in App.tsx: the occurrence
timestamp with null coalesced to 0. -/
def timeKey (f : EarthquakeFeature) : ℤ :=
  f.properties.time.getD 0

/-- The sortedByTimeDesc memo in App.tsx: a stable sort by descending time
key, mirroring the comparator that orders b before a when the key of b
exceeds the key of a. -/
def sortedByTimeDesc (l : List EarthquakeFeature) : List EarthquakeFeature :=
  l.mergeSort (fun a b => decide (timeKey b ≤ timeKey a))

/-- The page size constant of App.tsx. -/
def pageSize : Nat := 9

/-- The totalPages computation of App.tsx: the ceiling of count over page
size, floored at one. -/
def totalPages (n : Nat) : Nat :=
  max 1 ((n + pageSize - 1) / pageSize)

/-- The pageItems memo of App.tsx: the slice of the sorted list starting at
offset (page minus one) times page size, of length at most page size. -/
def pageItems (page : Nat) (sorted : List EarthquakeFeature) :
    List EarthquakeFeature :=
  (sorted.drop ((page - 1) * pageSize)).take pageSize

/-- The concatenation of all pages from one through totalPages. -/
def allPages (sorted : List EarthquakeFeature) : List EarthquakeFeature :=
  ((List.range (totalPages sorted.length)).map
    (fun i => pageItems (i + 1) sorted)).flatten

/-- Helper: the concatenation of the first k fixed-size slices of a list is
its prefix of length k times the slice size. -/
theorem slices_flatten_take {α : Type} (s : List α) (sz : Nat) (k : Nat) :
    ((List.range k).map (fun i => (s.drop (i * sz)).take sz)).flatten
      = s.take (k * sz) := by
  induction k with
  | zero => simp
  | succ n ih =>
    rw [List.range_succ, List.map_append, List.flatten_append, ih]
    simp only [List.map_cons, List.map_nil, List.flatten_cons,
      List.flatten_nil, List.append_nil]
    rw [Nat.succ_mul, List.take_add]

/-- C3: the concatenation of pages one through totalPages over the sorted
list is the entire sorted list, for any non-empty input. -/
theorem pages_cover_sorted (l : List EarthquakeFeature) (_h : l ≠ []) :
    allPages (sortedByTimeDesc l) = sortedByTimeDesc l := by
  rw [allPages]
  have hfun : (fun i => pageItems (i + 1) (sortedByTimeDesc l))
      = (fun i => ((sortedByTimeDesc l).drop (i * pageSize)).take pageSize) := by
    funext i
    rw [pageItems, Nat.add_sub_cancel]
  rw [hfun, slices_flatten_take]
  apply List.take_of_length_le
  rw [totalPages, pageSize]
  omega

/-- C3 witness: a one-element list is non-empty and its single page covers
the whole sorted list. -/
theorem pages_cover_sorted_witness :
    allPages (sortedByTimeDesc [sampleFeature])
      = sortedByTimeDesc [sampleFeature] :=
  pages_cover_sorted [sampleFeature] (by simp)

/-- C10: asking for a page past totalPages yields the empty page; the slice
is total and never fails. -/
theorem pageItems_overflow_empty (sorted : List EarthquakeFeature)
    (page : Nat) (h : totalPages sorted.length < page) :
    pageItems page sorted = [] := by
  rw [pageItems]
  have hdrop : sorted.drop ((page - 1) * pageSize) = [] := by
    apply List.drop_eq_nil_of_le
    simp only [totalPages, pageSize] at h ⊢
    omega
  rw [hdrop, List.take_nil]

/-- C10 witness: a one-element list has one page, and page two is empty. -/
theorem pageItems_overflow_empty_witness :
    totalPages ([sampleFeature].length) < 2
    ∧ pageItems 2 [sampleFeature] = [] :=
  ⟨by decide, pageItems_overflow_empty [sampleFeature] 2 (by decide)⟩

/-- The list of len consecutive integers starting at s, mirroring the array
construction in getPageNumbers. -/
def intRange (s : ℤ) (len : Nat) : List ℤ :=
  (List.range len).map (fun (i : Nat) => s + (i : ℤ))

/-- Half the window, from the getPageNumbers function in App.tsx. -/
def gpnHalf (maxW : ℤ) : ℤ := maxW / 2

/-- The window start before clamping, from getPageNumbers in App.tsx. -/
def gpnStart0 (current maxW : ℤ) : ℤ := max 1 (current - gpnHalf maxW)

/-- The window end before clamping, from getPageNumbers in App.tsx. -/
def gpnEnd0 (current maxW : ℤ) : ℤ := gpnStart0 current maxW + maxW - 1

/-- The window end after clamping to the page count. -/
def gpnEnd (current total maxW : ℤ) : ℤ :=
  if gpnEnd0 current maxW > total then total else gpnEnd0 current maxW

/-- The window start, recomputed when the end was clamped. -/
def gpnStart (current total maxW : ℤ) : ℤ :=
  if gpnEnd0 current maxW > total then gpnEnd current total maxW - maxW + 1
  else gpnStart0 current maxW

/-- The getPageNumbers function of App.tsx: all pages when they fit in the
window, otherwise a clamped window of maxW pages around the current page.
The source always calls it with maxW equal to 7. -/
def getPageNumbers (current total maxW : ℤ) : List ℤ :=
  if total ≤ maxW then intRange 1 total.toNat
  else intRange (gpnStart current total maxW)
    ((gpnEnd current total maxW - gpnStart current total maxW + 1).toNat)

/-- Helper: the length of an integer range. -/
theorem intRange_length (s : ℤ) (len : Nat) : (intRange s len).length = len := by
  rw [intRange, List.length_map, List.length_range]

/-- Helper: membership in an integer range is the pair of bounds. -/
theorem intRange_mem (s : ℤ) (len : Nat) (x : ℤ) :
    x ∈ intRange s len ↔ s ≤ x ∧ x < s + (len : ℤ) := by
  rw [intRange]
  simp only [List.mem_map, List.mem_range]
  constructor
  · rintro ⟨i, hi, rfl⟩
    omega
  · intro hx
    refine ⟨(x - s).toNat, by omega, by omega⟩

/-- C2 (amended): for page count t at least 1 and window w at least 1, the
algorithm returns exactly min t w contiguous integers, all within 1 and t,
and the range contains the current page c whenever t is at least w and c is
itself a valid page, between 1 and t. -/
theorem getPageNumbers_spec (c t w : ℤ) (ht : 1 ≤ t) (hw : 1 ≤ w) :
    (getPageNumbers c t w).length = (min t w).toNat
    ∧ (∃ s, getPageNumbers c t w = intRange s ((min t w).toNat))
    ∧ (∀ x, x ∈ getPageNumbers c t w → 1 ≤ x ∧ x ≤ t)
    ∧ (w ≤ t → 1 ≤ c → c ≤ t → c ∈ getPageNumbers c t w) := by
  by_cases h1 : t ≤ w
  · have hmin : min t w = t := min_eq_left h1
    refine ⟨?_, ⟨1, ?_⟩, ?_, ?_⟩
    · rw [getPageNumbers, if_pos h1, intRange_length, hmin]
    · rw [getPageNumbers, if_pos h1, hmin]
    · intro x hx
      rw [getPageNumbers, if_pos h1, intRange_mem] at hx
      omega
    · intro hwt h1c hct
      rw [getPageNumbers, if_pos h1, intRange_mem]
      omega
  · have hlen : gpnEnd c t w - gpnStart c t w + 1 = w := by
      rw [gpnStart, gpnEnd, gpnEnd0, gpnStart0, gpnHalf]
      split_ifs <;> omega
    have hstart1 : 1 ≤ gpnStart c t w := by
      rw [gpnStart, gpnEnd, gpnEnd0, gpnStart0, gpnHalf]
      split_ifs <;> omega
    have hendt : gpnEnd c t w ≤ t := by
      rw [gpnEnd, gpnEnd0, gpnStart0, gpnHalf]
      split_ifs <;> omega
    refine ⟨?_, ⟨gpnStart c t w, ?_⟩, ?_, ?_⟩
    · rw [getPageNumbers, if_neg h1, intRange_length]
      omega
    · rw [getPageNumbers, if_neg h1]
      have hn : (gpnEnd c t w - gpnStart c t w + 1).toNat = (min t w).toNat := by
        omega
      rw [hn]
    · intro x hx
      rw [getPageNumbers, if_neg h1, intRange_mem] at hx
      omega
    · intro hwt h1c hct
      have hcs : gpnStart c t w ≤ c := by
        rw [gpnStart, gpnEnd, gpnEnd0, gpnStart0, gpnHalf]
        split_ifs <;> omega
      have hce : c ≤ gpnEnd c t w := by
        rw [gpnEnd, gpnEnd0, gpnStart0, gpnHalf]
        split_ifs <;> omega
      rw [getPageNumbers, if_neg h1, intRange_mem]
      omega

/-- C2 witness: the characterization at current page 3 of 10 pages with the
default window of 7. -/
theorem getPageNumbers_witness :
    (getPageNumbers 3 10 7).length = (min (10 : ℤ) 7).toNat
    ∧ (∃ s, getPageNumbers 3 10 7 = intRange s ((min (10 : ℤ) 7).toNat))
    ∧ (∀ x, x ∈ getPageNumbers 3 10 7 → 1 ≤ x ∧ x ≤ 10)
    ∧ ((7 : ℤ) ≤ 10 → (1 : ℤ) ≤ 3 → (3 : ℤ) ≤ 10 →
        (3 : ℤ) ∈ getPageNumbers 3 10 7) :=
  getPageNumbers_spec 3 10 7 (by decide) (by decide)

/-- C2 counterexample to the claim as stated: with current page 8, page
count 7 and window 7, the count is at least 1 and at least the window, yet
the returned range, pages 1 through 7, does not contain the current page;
the claim needs the current page to lie between 1 and the page count. -/
theorem getPageNumbers_cex :
    (1 : ℤ) ≤ 7 ∧ (7 : ℤ) ≤ 7 ∧ (8 : ℤ) ∉ getPageNumbers 8 7 7 := by
  refine ⟨by decide, by decide, ?_⟩
  decide

/-- The time range enumeration from src/types/earthquake.ts. -/
inductive TimeRange
  | hour
  | day
  | week
  | month
deriving DecidableEq, Repr

/-- The FEED_BY_RANGE table of src/lib/usgs.ts. -/
def FEED_BY_RANGE (r : TimeRange) : String :=
  match r with
  | .hour => "https://earthquake.usgs.gov/earthquakes/feed/v1.0/summary/all_hour.geojson"
  | .day => "https://earthquake.usgs.gov/earthquakes/feed/v1.0/summary/all_day.geojson"
  | .week => "https://earthquake.usgs.gov/earthquakes/feed/v1.0/summary/all_week.geojson"
  | .month => "https://earthquake.usgs.gov/earthquakes/feed/v1.0/summary/all_month.geojson"

/-- A resolved HTTP response: the status code and the parsed body. -/
structure HttpResponse where
  status : Nat
  body : EarthquakeGeoJSON
deriving DecidableEq, Repr

/-- The ok flag of the fetch response object: status in the 2xx range. -/
def respOk (status : Nat) : Bool :=
  decide (200 ≤ status) && decide (status ≤ 299)

/-- The error message built by fetchEarthquakes in src/lib/usgs.ts. -/
def usgsErrorMessage (status : Nat) : String :=
  "USGS request failed: " ++ toString status

/-- The fetchEarthquakes function of src/lib/usgs.ts, as a function of the
requested range and the response the endpoint for that range produced:
throw on a non-ok response, otherwise return the parsed body. -/
def fetchEarthquakes (range : TimeRange) (resp : HttpResponse) :
    Except String EarthquakeGeoJSON :=
  let _url := FEED_BY_RANGE range
  if respOk resp.status then Except.ok resp.body
  else Except.error (usgsErrorMessage resp.status)

/-- C5: for every range, a non-2xx response produces an error carrying the
status code, a 2xx response produces the parsed body, and data is never
returned for a non-success status. -/
theorem fetchEarthquakes_status_spec (range : TimeRange)
    (resp : HttpResponse) :
    (respOk resp.status = false →
      fetchEarthquakes range resp = Except.error (usgsErrorMessage resp.status))
    ∧ (respOk resp.status = true →
      fetchEarthquakes range resp = Except.ok resp.body)
    ∧ (∀ geo, fetchEarthquakes range resp = Except.ok geo →
      respOk resp.status = true) := by
  refine ⟨?_, ?_, ?_⟩
  · intro h
    rw [fetchEarthquakes]
    simp [h]
  · intro h
    rw [fetchEarthquakes]
    simp [h]
  · intro geo h
    by_cases hok : respOk resp.status = true
    · exact hok
    · rw [fetchEarthquakes] at h
      simp [Bool.eq_false_iff.mpr hok] at h

/-- C5 witness: a 503 response for the hour range fails with the message
carrying 503, and a 200 response for the day range returns the body. -/
theorem fetchEarthquakes_status_witness :
    fetchEarthquakes TimeRange.hour { status := 503, body := { features := [] } }
      = Except.error "USGS request failed: 503"
    ∧ fetchEarthquakes TimeRange.day { status := 200, body := { features := [] } }
      = Except.ok { features := [] } :=
  ⟨(fetchEarthquakes_status_spec TimeRange.hour
      { status := 503, body := { features := [] } }).1 (by decide),
    (fetchEarthquakes_status_spec TimeRange.day
      { status := 200, body := { features := [] } }).2.1 (by decide)⟩

/-- The React state of the App component in App.tsx, one field per useState
hook that the claims concern, plus the suppressFitRef mutable cell. -/
structure AppState where
  range : TimeRange
  minMag : ℚ
  query : Str
  pendingRange : TimeRange
  pendingMinMag : ℚ
  pendingQuery : Str
  data : List EarthquakeFeature
  loading : Bool
  error : Option String
  selected : Option EarthquakeFeature
  detailsOpen : Bool
  autoFitEnabled : Bool
  page : Nat
  suppressFit : Bool
deriving Repr

/-- The initial state of the App component, from the useState defaults. -/
def initialState : AppState :=
  { range := .day
    minMag := (2.5 : ℚ)
    query := []
    pendingRange := .day
    pendingMinMag := (2.5 : ℚ)
    pendingQuery := []
    data := []
    loading := true
    error := none
    selected := none
    detailsOpen := false
    autoFitEnabled := true
    page := 1
    suppressFit := false }

/-- Start of the fetch effect in App.tsx: set loading, clear the error. -/
def fetchStart (s : AppState) : AppState :=
  { s with loading := true, error := none }

/-- The then handler of the fetch effect, when its isActive flag still
holds: replace the data with the fetched features. -/
def onFetchSuccess (isActive : Bool) (features : List EarthquakeFeature)
    (s : AppState) : AppState :=
  if isActive then { s with data := features } else s

/-- The catch handler of the fetch effect, when its isActive flag still
holds: record the error message. -/
def onFetchError (isActive : Bool) (msg : String) (s : AppState) : AppState :=
  if isActive then { s with error := some msg } else s

/-- The finally handler of the fetch effect, when its isActive flag still
holds: clear the loading flag. -/
def onFetchFinally (isActive : Bool) (s : AppState) : AppState :=
  if isActive then { s with loading := false } else s

/-- Resolution of one fetch: the then or catch handler followed by the
finally handler, each guarded by the isActive flag of that fetch. -/
def resolveFetch (isActive : Bool)
    (result : Except String (List EarthquakeFeature)) (s : AppState) :
    AppState :=
  match result with
  | Except.ok features => onFetchFinally isActive (onFetchSuccess isActive features s)
  | Except.error msg => onFetchFinally isActive (onFetchError isActive msg s)

/-- C6: a failed fetch cycle, start then error then finally, changes only
the error message and the loading flag; data, active and pending filters,
selection and page survive untouched. -/
theorem fetchFailure_frame (s : AppState) (msg : String) :
    let r := onFetchFinally true (onFetchError true msg (fetchStart s))
    r.data = s.data ∧ r.range = s.range ∧ r.minMag = s.minMag
    ∧ r.query = s.query ∧ r.pendingRange = s.pendingRange
    ∧ r.pendingMinMag = s.pendingMinMag ∧ r.pendingQuery = s.pendingQuery
    ∧ r.selected = s.selected ∧ r.page = s.page
    ∧ r.error = some msg ∧ r.loading = false :=
  ⟨rfl, rfl, rfl, rfl, rfl, rfl, rfl, rfl, rfl, rfl, rfl⟩

/-- One mounted fetch effect: its cancellation flag and the range it was
started for. The effect closure in App.tsx owns the mutable isActive. -/
structure FetchHandle where
  isActive : Bool
  range : TimeRange
deriving DecidableEq, Repr

/-- The cleanup function returned by the fetch effect: clear isActive. -/
def cleanupFetch (h : FetchHandle) : FetchHandle :=
  { h with isActive := false }

/-- A change of the active range while a fetch is unresolved: the previous
effect is cleaned up and a new effect starts for the new range. -/
def superseded (h : FetchHandle) (newRange : TimeRange) :
    FetchHandle × FetchHandle :=
  (cleanupFetch h, { isActive := true, range := newRange })

/-- C7: when the range changes while a fetch is unresolved, resolving the
superseded fetch with any result or error leaves the whole state unchanged,
while the fetch for the latest range is the active one. -/
theorem staleFetch_discarded (h : FetchHandle) (newRange : TimeRange)
    (result : Except String (List EarthquakeFeature)) (s : AppState) :
    resolveFetch (superseded h newRange).1.isActive result s = s
    ∧ (superseded h newRange).2.isActive = true
    ∧ (superseded h newRange).2.range = newRange := by
  refine ⟨?_, rfl, rfl⟩
  cases result <;>
    simp [resolveFetch, superseded, cleanupFetch, onFetchSuccess,
      onFetchError, onFetchFinally]

/-- The body of the FitBounds effect in App.tsx, over the latitude and
longitude points, the disabled prop and the suppression cell. It returns
the new value of the suppression cell and whether fitBounds was called:
return early when disabled; else consume the suppression flag and stop;
else skip empty point lists; else fit the bounds. -/
def fitBoundsEval (points : List (ℚ × ℚ)) (disabled : Bool)
    (suppress : Bool) : Bool × Bool :=
  if disabled then (suppress, false)
  else if suppress then (false, false)
  else if points.isEmpty then (suppress, false)
  else (suppress, true)

/-- One run of the FitBounds effect against the App state: the component is
rendered with disabled set to the negation of autoFitEnabled. -/
def runFitEffect (points : List (ℚ × ℚ)) (s : AppState) : AppState × Bool :=
  let r := fitBoundsEval points (!s.autoFitEnabled) s.suppressFit
  ({ s with suppressFit := r.1 }, r.2)

/-- The click handler shared by markers and list items in App.tsx: set the
suppression cell, disable auto fit, select the event, close the details. -/
def selectEvent (f : EarthquakeFeature) (s : AppState) : AppState :=
  { s with suppressFit := true
           autoFitEnabled := false
           selected := some f
           detailsOpen := false }

/-- The apply-filters handler in App.tsx: promote the pending filter to the
active one, clear the selection, re-enable auto fit. -/
def applyFilters (s : AppState) : AppState :=
  { s with range := s.pendingRange
           minMag := s.pendingMinMag
           query := s.pendingQuery
           selected := none
           autoFitEnabled := true }

/-- The effect in App.tsx keyed on the cardinality of the sorted filtered
list: reset the page to one and re-enable auto fit. -/
def onCardinalityChange (s : AppState) : AppState :=
  { s with page := 1, autoFitEnabled := true }

/-- A sequence of FitBounds effect runs, one per point list, returning the
final state and the list telling for each run whether a fit was done. -/
def runFits : List (List (ℚ × ℚ)) → AppState → AppState × List Bool
  | [], s => (s, [])
  | ps :: rest, s =>
    let r := runFitEffect ps s
    let rr := runFits rest r.1
    (rr.1, r.2 :: rr.2)

/-- Helper: while auto fit is disabled, any sequence of FitBounds effect
runs keeps it disabled and performs no fit. -/
theorem runFits_disabled (pss : List (List (ℚ × ℚ))) (s : AppState)
    (h : s.autoFitEnabled = false) :
    (runFits pss s).1.autoFitEnabled = false
    ∧ (runFits pss s).2 = List.replicate pss.length false := by
  induction pss generalizing s with
  | nil => exact ⟨h, rfl⟩
  | cons ps rest ih =>
    have hstate : (runFitEffect ps s).1.autoFitEnabled = false := by
      rw [runFitEffect]
      exact h
    have hsup : (runFitEffect ps s).1.suppressFit = s.suppressFit := by
      rw [runFitEffect, fitBoundsEval, h]
      rfl
    have hdid : (runFitEffect ps s).2 = false := by
      rw [runFitEffect, fitBoundsEval, h]
      rfl
    have hrec := ih (runFitEffect ps s).1 hstate
    rw [runFits]
    refine ⟨hrec.1, ?_⟩
    rw [List.length_cons, List.replicate_succ]
    rw [hdid]
    exact congrArg _ hrec.2

/-- C4 (amended): whenever the FitBounds effect runs while the suppression
flag is set and auto fit is enabled, the flag is reset to false during that
run and no bounds fit is performed, whatever the point list is; when auto
fit is disabled the flag is left untouched, so the suppression set by
selecting an event, which also disables auto fit, is consumed only by the
first run after auto fit is re-enabled. -/
theorem fitEval_consumes_suppress (s : AppState) (points : List (ℚ × ℚ))
    (hsup : s.suppressFit = true) (hen : s.autoFitEnabled = true) :
    (runFitEffect points s).1.suppressFit = false
    ∧ (runFitEffect points s).2 = false := by
  rw [runFitEffect, fitBoundsEval, hsup, hen]
  exact ⟨rfl, rfl⟩

/-- C4 witness: the consumption at a concrete state with the flag set and
auto fit enabled. -/
theorem fitEval_consumes_suppress_witness :
    (runFitEffect [((1 : ℚ), (2 : ℚ))]
        { initialState with suppressFit := true }).1.suppressFit = false
    ∧ (runFitEffect [((1 : ℚ), (2 : ℚ))]
        { initialState with suppressFit := true }).2 = false :=
  fitEval_consumes_suppress { initialState with suppressFit := true }
    [((1 : ℚ), (2 : ℚ))] rfl rfl

/-- C4 counterexample to the claim as stated: selecting an event sets the
suppression flag and disables auto fit, and the very next FitBounds run,
which executes with the disabled prop set, returns before touching the
flag: the flag is still set after that run, so it is not consumed by the
very next fit evaluation. -/
theorem fitEval_suppress_cex :
    (selectEvent sampleFeature initialState).suppressFit = true
    ∧ (selectEvent sampleFeature initialState).autoFitEnabled = false
    ∧ (runFitEffect [((1 : ℚ), (2 : ℚ))]
        (selectEvent sampleFeature initialState)).1.suppressFit = true :=
  ⟨rfl, rfl, rfl⟩

/-- C9: after selecting an event, auto fit is disabled and stays disabled
across any sequence of FitBounds runs, none of which performs a fit; the
apply-filters action and a cardinality change each re-enable it. -/
theorem autofit_disabled_until_reenable (s : AppState)
    (f : EarthquakeFeature) (pss : List (List (ℚ × ℚ))) :
    (runFits pss (selectEvent f s)).1.autoFitEnabled = false
    ∧ (runFits pss (selectEvent f s)).2 = List.replicate pss.length false
    ∧ (applyFilters s).autoFitEnabled = true
    ∧ (onCardinalityChange s).autoFitEnabled = true := by
  have h := runFits_disabled pss (selectEvent f s) rfl
  exact ⟨h.1, h.2, rfl, rfl⟩
